import Mathlib

/-!
A shallow embedding of the libx memory-management core: the implementation
section of src/libx.h (the current single-header revision) and, where a
claim cites it, the older revision src/libx.c (the X-prefixed functions).

Conventions of the embedding:
* C machine integers: `int` struct fields are `Int`; `u64`/`size_t`
  parameters are `Nat` (a u64 argument is a value below 2^64, which the
  theorems carry as a hypothesis where it matters).  The implicit
  conversions the C code performs are explicit here: `toU64` models the
  int-to-u64 conversion used by the usual arithmetic conversions, and
  `i32ofU64` models the u64-to-int conversion performed by a store into an
  `int` field (two's-complement wrap, as on the target compilers).
* Pointers are integer addresses.  The byte contents of a string view are
  modelled by the list of bytes the view denotes, so `String.str` plus
  `String.length` plus the pointed-to buffer collapse to a `List Nat`;
  an errored String, which the code builds with length 0 and a null or
  irrelevant pointer, is the empty list.
* A function taking an object through a pointer is a state transformer
  returning the updated object; passing `NULL` is modelled with an
  `Option` wrapper where a claim needs it (`ArenaAllocP`).
* A call of the fatal `panic` routine is a `none` (for `CharAt`) or a
  `panicked` result (for `XError`); the process terminates, so nothing
  further is modelled on those paths.
-/

namespace Libx

/-- Lean string type, captured before `Libx.String` shadows the name:
used only to hold the literal message texts of the error tables. -/
abbrev Cstr := String

/-- The C `error` enum is an `int`, so values outside the declared
enumerators are representable; it is modelled as `Nat` (negative codes
play no role in any claim). -/
abbrev error := Nat

def ERR_NO_ERROR : error := 0
def ERR_FILE_READ : error := 1
def ERR_NO_MEMORY : error := 2
def ERR_MEMORY_FREED : error := 3
def ERR_DOUBLE_FREE : error := 4
def ERR_ARENA_RELEASE_AFTER_ALLOC : error := 5
def ERR_TEMP_ARENA_FREE : error := 6
def ERR_LIST_FULL : error := 7
def ERR_ITERATION_FINISH : error := 8
def ERR_FILE_NOT_FOUND : error := 9
def ERR_NULL_PTR : error := 10

/-- 2^64, the modulus of C `unsigned long long` (u64) arithmetic. -/
def UMAX : Nat := 2 ^ 64

/-- Conversion of a C `int` value to u64 (sign-extension then
reinterpretation: the value modulo 2^64, as mandated for conversions to
unsigned types). -/
def toU64 (i : Int) : Nat := (i % (UMAX : Int)).toNat

/-- Conversion of a u64 value to a C `int` (two's-complement wrap modulo
2^32, the behaviour of the target compilers for out-of-range values). -/
def i32ofU64 (n : Nat) : Int :=
  if n % 2 ^ 32 < 2 ^ 31 then ((n % 2 ^ 32 : Nat) : Int)
  else ((n % 2 ^ 32 : Nat) : Int) - 2 ^ 32

/-- struct Arena: memory is the base address of the owned block; size,
pos and depth are `int` fields. -/
structure Arena where
  memory : Int
  size : Int
  pos : Int
  depth : Int
  err : error
deriving DecidableEq, Repr

/-- Well-formedness of an arena as produced and maintained by the API:
the int fields pos and size satisfy 0 <= pos <= size < 2^31. -/
def ArenaWF (a : Arena) : Prop :=
  0 ≤ a.pos ∧ a.pos ≤ a.size ∧ a.size < 2 ^ 31

instance (a : Arena) : Decidable (ArenaWF a) := by
  unfold ArenaWF; infer_instance

/-- ArenaAlloc (libx.h, non-NULL arena): the guard computes
`a->pos + size > a->size` in u64 (both int operands converted), so the
sum wraps modulo 2^64; on success the returned pointer is
`a->memory + a->pos` and the compound assignment stores the u64 sum back
into the int field `pos`. -/
def ArenaAlloc (a : Arena) (size : Nat) : Option Int × Arena :=
  if a.err ≠ ERR_NO_ERROR then (none, a)
  else if (toU64 a.pos + size) % UMAX > toU64 a.size then
    (none, { a with err := ERR_NO_MEMORY })
  else
    (some (a.memory + a.pos), { a with pos := i32ofU64 ((toU64 a.pos + size) % UMAX) })

/-- ArenaAlloc including the `a == NULL` guard of the C code: an absent
arena pointer yields NULL with no arena to mutate. -/
def ArenaAllocP (a : Option Arena) (size : Nat) : Option Int × Option Arena :=
  match a with
  | none => (none, none)
  | some a => ((ArenaAlloc a size).1, some (ArenaAlloc a size).2)

/-- ArenaTemp (libx.h, non-NULL parent).  The source line
`if (!Ok(*parent)) (Arena){.err = parent->err};` lacks a `return`, so it
has no effect; the subsequent ArenaAlloc performs the same error check
and fails, and the function then returns `(Arena){.err = parent->err}`
(all other fields zero), which is the behaviour modelled here.  On
success the new arena gets the freshly allocated pointer as its buffer,
the u64 `size` stored into its int field, pos 0 and depth one more than
the parent. -/
def ArenaTemp (parent : Arena) (size : Nat) : Arena × Arena :=
  match ArenaAlloc parent size with
  | (none, p) => ({ memory := 0, size := 0, pos := 0, depth := 0, err := p.err }, p)
  | (some ptr, p) =>
    ({ memory := ptr, size := i32ofU64 size, pos := 0, depth := p.depth + 1,
       err := ERR_NO_ERROR }, p)

/-- ArenaReleaseTemp (libx.h, both pointers non-NULL): returns the error
code and the updated temp and parent.  The release check compares the
addresses `parent->memory + parent->pos - temp->size` and `temp->memory`
(pointer arithmetic, modelled in `Int`). -/
def ArenaReleaseTemp (temp parent : Arena) : error × Arena × Arena :=
  if temp.err ≠ ERR_NO_ERROR then (temp.err, temp, parent)
  else if parent.err ≠ ERR_NO_ERROR then (parent.err, temp, parent)
  else if parent.memory + parent.pos - temp.size ≠ temp.memory then
    (ERR_ARENA_RELEASE_AFTER_ALLOC, temp, parent)
  else
    (ERR_NO_ERROR, { temp with err := ERR_MEMORY_FREED },
     { parent with pos := parent.pos - temp.size })

/-- ArenaFree (libx.h, non-NULL arena): returns the error code, the
updated arena, and whether `xdefaultFree` was invoked on the buffer. -/
def ArenaFree (a : Arena) : error × Arena × Bool :=
  if a.err = ERR_MEMORY_FREED then (ERR_DOUBLE_FREE, a, false)
  else if a.err ≠ ERR_NO_ERROR then (a.err, a, false)
  else if a.depth ≠ 0 then (ERR_TEMP_ARENA_FREE, a, false)
  else (ERR_NO_ERROR, { a with err := ERR_MEMORY_FREED }, true)

/-- XArenaFree (libx.c): the arena is passed BY VALUE, so the store
`a.err = ERR_MEMORY_FREED` lands in the callee's local copy and the
caller's arena is unchanged; accordingly no updated arena is returned.
The Bool records whether `xdefaultFree` was invoked. -/
def XArenaFree (a : Arena) : error × Bool :=
  if a.err = ERR_MEMORY_FREED then (ERR_DOUBLE_FREE, false)
  else if a.depth ≠ 0 then (ERR_TEMP_ARENA_FREE, false)
  else (ERR_NO_ERROR, true)

/-- XArenaReleaseTemp (libx.c): same address check as the header
revision but with no NULL or error-state guards at all. -/
def XArenaReleaseTemp (temp parent : Arena) : error × Arena × Arena :=
  if parent.memory + parent.pos - temp.size ≠ temp.memory then
    (ERR_ARENA_RELEASE_AFTER_ALLOC, temp, parent)
  else
    (ERR_NO_ERROR, { temp with err := ERR_MEMORY_FREED },
     { parent with pos := parent.pos - temp.size })

/-- Folding a sequence of ArenaAlloc requests over an arena, keeping the
final arena state (models a sequence of calls through the same pointer). -/
def allocSeq (a : Arena) (sizes : List Nat) : Arena :=
  sizes.foldl (fun a sz => (ArenaAlloc a sz).2) a

/-- struct ListHeader (libx.h implementation section).  The data region
that follows the header in memory holds the element bytes; the claims
settled here concern only the header bookkeeping (length and cap), so the
element store is not tracked. -/
structure ListHeader where
  length : Int
  cap : Int
  dataSize : Int
  err : error
deriving DecidableEq, Repr

/-- ListCreate(dataSize, length): header with length 0, cap set to the
requested element count, err zero-initialised.  The size_t arguments
are stored into the int header fields, so each store wraps through the
u64-to-int conversion: a capacity of 2^31 or more lands in the cap
field as a negative number. -/
def ListCreate (dataSize cap : Nat) : ListHeader :=
  { length := 0, cap := i32ofU64 cap, dataSize := i32ofU64 dataSize, err := ERR_NO_ERROR }

/-- ListAppend: writes the item at offset length*dataSize and increments
length, but only when `header->length < header->cap`; otherwise it does
nothing.  The item write goes to the untracked data region. -/
def ListAppend (l : ListHeader) (_item : Nat) : ListHeader :=
  if l.length < l.cap then { l with length := l.length + 1 } else l

/-- ListPop: decrements length UNconditionally and returns the offset
`length * dataSize` (relative to the data region) of the removed slot. -/
def ListPop (l : ListHeader) : Int × ListHeader :=
  ((l.length - 1) * l.dataSize, { l with length := l.length - 1 })

def ListLen (l : ListHeader) : Int := l.length

def ListCap (l : ListHeader) : Int := l.cap

/-- Appending n times (the item value is irrelevant to the header). -/
def appendN : ListHeader → Nat → ListHeader
  | l, 0 => l
  | l, n + 1 => appendN (ListAppend l 0) n

/-- struct String: the view (str pointer, length, err) is modelled by
the byte list the view denotes plus the error; an errored String, which
the code constructs with length 0, is the empty list. -/
structure String where
  chars : List Nat
  err : error
deriving DecidableEq, Repr

/-- struct StringIter. -/
structure StringIter where
  s : String
  pos : Nat
  err : error
deriving DecidableEq, Repr

/-- CharAt: panics (`none`) when the string carries an error or the
index is out of bounds, otherwise yields the byte. -/
def CharAt (s : String) (pos : Nat) : Option Nat :=
  if s.err ≠ ERR_NO_ERROR then none
  else if h : s.chars.length ≤ pos then none
  else some (s.chars.get ⟨pos, by omega⟩)

/-- StrCopy (libx.h, non-NULL arena): short-circuits an errored input,
then allocates length bytes from the arena and copies the view. -/
def StrCopy (a : Arena) (s : String) : String × Arena :=
  if s.err ≠ ERR_NO_ERROR then ({ chars := [], err := s.err }, a)
  else
    match ArenaAlloc a s.chars.length with
    | (none, a2) => ({ chars := [], err := ERR_NO_MEMORY }, a2)
    | (some _, a2) => ({ chars := s.chars, err := ERR_NO_ERROR }, a2)

/-- The per-byte transformation of StrUpper's loop: `c -= 32` exactly
when c is in the range of lowercase ASCII letters (97 to 122); every
other byte, including every non-ASCII byte, passes through unchanged. -/
def upperByte (c : Nat) : Nat := if 97 ≤ c ∧ c ≤ 122 then c - 32 else c

/-- The per-byte transformation of StrLower's loop: `c += 32` exactly
when c is in the range of uppercase ASCII letters (65 to 90). -/
def lowerByte (c : Nat) : Nat := if 65 ≤ c ∧ c ≤ 90 then c + 32 else c

/-- StrUpper (libx.h, non-NULL arena): short-circuits an errored input,
copies s into the arena (short-circuiting a failed copy), then overwrites
every byte of the copy with the case-folded byte read from s. -/
def StrUpper (a : Arena) (s : String) : String × Arena :=
  if s.err ≠ ERR_NO_ERROR then ({ chars := [], err := s.err }, a)
  else
    match StrCopy a s with
    | (upper, a2) =>
      if upper.err ≠ ERR_NO_ERROR then ({ chars := [], err := upper.err }, a2)
      else ({ chars := s.chars.map upperByte, err := ERR_NO_ERROR }, a2)

/-- StrLower (libx.h, non-NULL arena), symmetric to StrUpper. -/
def StrLower (a : Arena) (s : String) : String × Arena :=
  if s.err ≠ ERR_NO_ERROR then ({ chars := [], err := s.err }, a)
  else
    match StrCopy a s with
    | (lower, a2) =>
      if lower.err ≠ ERR_NO_ERROR then ({ chars := [], err := lower.err }, a2)
      else ({ chars := s.chars.map lowerByte, err := ERR_NO_ERROR }, a2)

/-- StrConcat (libx.h, non-NULL arena): short-circuits either errored
input with that input's error and length 0, leaving the arena untouched;
otherwise allocates s1.length + s2.length bytes and copies both views.
The C code does not check the allocation's result before the memcpy; on
the success path modelled here the concatenated bytes are returned. -/
def StrConcat (a : Arena) (s1 s2 : String) : String × Arena :=
  if s1.err ≠ ERR_NO_ERROR then ({ chars := [], err := s1.err }, a)
  else if s2.err ≠ ERR_NO_ERROR then ({ chars := [], err := s2.err }, a)
  else
    match ArenaAlloc a (s1.chars.length + s2.chars.length) with
    | (_, a2) => ({ chars := s1.chars ++ s2.chars, err := ERR_NO_ERROR }, a2)

/-- StrToIterator: wraps a String with cursor 0, inheriting its error. -/
def StrToIterator (s : String) : StringIter :=
  { s := s, pos := 0, err := s.err }

/-- StrToIteratorEx: builds the iterator from a raw buffer and length,
with no error. -/
def StrToIteratorEx (chars : List Nat) : StringIter :=
  { s := { chars := chars, err := ERR_NO_ERROR }, pos := 0, err := ERR_NO_ERROR }

/-- The scanning loop of StrSplit: `rest` is the list of bytes of the
iterated string from index `pos` on (the successive CharAt reads).
Returns the emitted String, the new cursor, and whether the end of the
string was reached without finding the delimiter (terminal case).  The
emitted view starts at `start` and ends before the cursor, which is the
slice `(chars.take pos).drop start`. -/
def splitGo (buf : List Nat) (delim : Nat) (start : Nat) :
    Nat → List Nat → String × Nat × Bool
  | pos, [] => ({ chars := (buf.take pos).drop start, err := ERR_NO_ERROR }, pos, true)
  | pos, c :: rest =>
    if c = delim then
      ({ chars := (buf.take pos).drop start, err := ERR_NO_ERROR }, pos + 1, false)
    else splitGo buf delim start (pos + 1) rest

/-- StrSplit (libx.h, non-NULL iterator).  An errored iterator
short-circuits, returning an errored empty String and leaving the
iterator untouched.  Otherwise the loop calls CharAt on the underlying
string, which panics (`none`) if that string itself carries an error
while bytes remain; on the normal path the loop scans for the delimiter,
and when the end is reached the iterator's error is set to
ERR_ITERATION_FINISH and the remaining tail is returned. -/
def StrSplit (iter : StringIter) (delim : Nat) : Option (String × StringIter) :=
  if iter.err ≠ ERR_NO_ERROR then some ({ chars := [], err := iter.err }, iter)
  else if iter.s.err ≠ ERR_NO_ERROR ∧ iter.pos < iter.s.chars.length then none
  else
    match splitGo iter.s.chars delim iter.pos iter.pos (iter.s.chars.drop iter.pos) with
    | (res, pos2, finished) =>
      some (res,
        if finished then { iter with pos := pos2, err := ERR_ITERATION_FINISH }
        else { iter with pos := pos2 })

/-- The not-found sentinel: `return -1` through the u32 return type. -/
def NOT_FOUND : Nat := 4294967295

/-- The inner loop of _strFindWordEx at outer index i: found stays true
iff every byte of the word whose position lies inside s matches; the
loop stops as soon as `i + j` reaches s.length, so bytes of the word
past the end of s are never compared. -/
def foundAt (chars word : List Nat) (i : Nat) : Bool :=
  (List.range word.length).all fun j =>
    decide (chars.length ≤ i + j) || (chars.getD (i + j) 0 == word.getD j 0)

/-- The outer loop of _strFindWordEx: `rest` is `chars.drop i`.  At each
index whose byte equals the first byte of the word the inner scan runs,
and the first index where it succeeds is returned. -/
def findGo (chars word : List Nat) : Nat → List Nat → Nat
  | _, [] => NOT_FOUND
  | i, c :: rest =>
    if c = word.getD 0 0 ∧ foundAt chars word i then i
    else findGo chars word (i + 1) rest

/-- _strFindWordEx (libx.h): word is passed as pointer plus length,
modelled as the byte list. -/
def _strFindWordEx (s : String) (word : List Nat) : Nat :=
  findGo s.chars word 0 s.chars

/-- StrFindWord: wordlen is strlen(word), i.e. the full byte list. -/
def StrFindWord (s : String) (word : List Nat) : Nat :=
  _strFindWordEx s word

/-- StrFindString: passes word.str and word.length, with no check of
word's error field. -/
def StrFindString (s word : String) : Nat :=
  _strFindWordEx s word.chars

/-- The match predicate realised by _strFindWordEx at index i: the byte
at i equals the first byte of the word, and every byte of the word that
lies within s matches s starting at i (bytes of the word extending past
the end of s are not constrained). -/
def FindMatch (chars word : List Nat) (i : Nat) : Prop :=
  chars.getD i 0 = word.getD 0 0 ∧
    ∀ j, j < word.length → i + j < chars.length → chars.getD (i + j) 0 = word.getD j 0

instance (chars word : List Nat) (i : Nat) : Decidable (FindMatch chars word i) := by
  unfold FindMatch; infer_instance

/-- The message table of the libx.h revision: all 11 enumerators have a
message. -/
def error_msgs : List Cstr :=
  ["No error",
   "Failed to read from file",
   "Out of memory",
   "Memory marked as free",
   "Multiple frees",
   "Temporary arena was freed after parent allocations",
   "Cannot free temporary arena",
   "List surpassed capacity",
   "Iterator is empty",
   "File not found",
   "NULL pointer exception"]

/-- Result of an error-message lookup: the process panicked, a message
pointer was returned, a NULL entry of the table was returned, or the
read went past the end of the table (undefined behaviour). -/
inductive XErrorResult where
  | panicked
  | msg (m : Cstr)
  | nullMsg
  | oobRead
deriving DecidableEq, Repr

def XErrorResult.isMsg : XErrorResult → Bool
  | .msg _ => true
  | _ => false

/-- sizeof(error_msgs) in the libx.h revision: 11 entries of pointer
size 8 (the library targets 64-bit Windows), i.e. 88 bytes — NOT the
entry count 11. -/
def sizeof_error_msgs : Nat := 11 * 8

/-- XError (libx.h): the guard compares the code against
sizeof(error_msgs) = 88, so codes 12 to 88 pass the guard and index past
the 11-entry table. -/
def XError (e : Nat) : XErrorResult :=
  if e > sizeof_error_msgs then .panicked
  else
    match error_msgs.get? e with
    | some m => .msg m
    | none => .oobRead

/-- The message table of the libx.c revision: designated initialisers
for indexes 0, 1, 2, 4, 5, 6 only, so the array has 7 entries and index
3 (ERR_MEMORY_FREED) is a NULL pointer. -/
def c_error_msgs : List (Option Cstr) :=
  [some ("No error"),
   some ("Failed to read from file"),
   some ("Out of memory"),
   none,
   some ("Multiple frees"),
   some ("Temporary arena was freed after parent allocations"),
   some ("Cannot free temporary arena")]

/-- XError (libx.c): no bounds check at all. -/
def cXError (e : Nat) : XErrorResult :=
  match c_error_msgs.get? e with
  | some (some m) => .msg m
  | some none => .nullMsg
  | none => .oobRead

end Libx

namespace Libx

theorem toU64_eq (i : Int) (h0 : 0 ≤ i) (h1 : i < (UMAX : Int)) : toU64 i = i.toNat := by
  unfold toU64
  rw [Int.emod_eq_of_lt h0 h1]

theorem i32ofU64_eq (n : Nat) (h : n < 2 ^ 31) : i32ofU64 n = (n : Int) := by
  unfold i32ofU64
  have h32 : n % 2 ^ 32 = n := Nat.mod_eq_of_lt (by omega)
  rw [h32, if_pos h]

theorem arenaAlloc_errored (a : Arena) (sz : Nat) (h : a.err ≠ ERR_NO_ERROR) :
    ArenaAlloc a sz = (none, a) := by
  simp [ArenaAlloc, h]

theorem arenaAlloc_success (a : Arena) (sz : Nat) (hwf : ArenaWF a)
    (herr : a.err = ERR_NO_ERROR) (hfit : a.pos + (sz : Int) ≤ a.size) :
    ArenaAlloc a sz = (some (a.memory + a.pos), { a with pos := a.pos + (sz : Int) }) := by
  obtain ⟨h0, h1, h2⟩ := hwf
  have hup : toU64 a.pos = a.pos.toNat := toU64_eq _ h0 (by unfold UMAX; omega)
  have hus : toU64 a.size = a.size.toNat := toU64_eq _ (by omega) (by unfold UMAX; omega)
  have hlt : a.pos.toNat + sz < UMAX := by unfold UMAX; omega
  have hmod : (toU64 a.pos + sz) % UMAX = a.pos.toNat + sz := by
    rw [hup]; exact Nat.mod_eq_of_lt hlt
  have hnog : ¬ (toU64 a.pos + sz) % UMAX > toU64 a.size := by
    rw [hmod, hus]; omega
  have hsmall : a.pos.toNat + sz < 2 ^ 31 := by omega
  have hi32 : i32ofU64 ((toU64 a.pos + sz) % UMAX) = a.pos + (sz : Int) := by
    rw [hmod, i32ofU64_eq _ hsmall]; omega
  simp [ArenaAlloc, herr, hnog, hi32]

theorem arenaAlloc_oom (a : Arena) (sz : Nat) (hwf : ArenaWF a)
    (herr : a.err = ERR_NO_ERROR) (hover : a.size < a.pos + (sz : Int))
    (hnw : a.pos + (sz : Int) < (UMAX : Int)) :
    ArenaAlloc a sz = (none, { a with err := ERR_NO_MEMORY }) := by
  obtain ⟨h0, h1, h2⟩ := hwf
  have hup : toU64 a.pos = a.pos.toNat := toU64_eq _ h0 (by unfold UMAX; omega)
  have hus : toU64 a.size = a.size.toNat := toU64_eq _ (by omega) (by unfold UMAX; omega)
  have hlt : a.pos.toNat + sz < UMAX := by unfold UMAX at *; omega
  have hmod : (toU64 a.pos + sz) % UMAX = a.pos.toNat + sz := by
    rw [hup]; exact Nat.mod_eq_of_lt hlt
  have hg : (toU64 a.pos + sz) % UMAX > toU64 a.size := by rw [hmod, hus]; omega
  simp [ArenaAlloc, herr, hg]

theorem arenaAlloc_wf (a : Arena) (sz : Nat) (hwf : ArenaWF a) :
    ArenaWF (ArenaAlloc a sz).2 := by
  obtain ⟨h0, h1, h2⟩ := hwf
  unfold ArenaAlloc
  split
  · exact ⟨h0, h1, h2⟩
  split
  · exact ⟨h0, h1, h2⟩
  · rename_i herr hng
    have hus : toU64 a.size = a.size.toNat := toU64_eq _ (by omega) (by unfold UMAX; omega)
    rw [hus] at hng
    generalize hv : (toU64 a.pos + sz) % UMAX = v at hng ⊢
    have hsmall : v < 2 ^ 31 := by omega
    rw [i32ofU64_eq v hsmall]
    unfold ArenaWF
    refine ⟨?_, ?_, ?_⟩
    · show (0 : Int) ≤ ((v : Nat) : Int)
      omega
    · show ((v : Nat) : Int) ≤ a.size
      omega
    · show a.size < 2 ^ 31
      exact h2

theorem allocSeq_wf (sizes : List Nat) (a : Arena) (hwf : ArenaWF a) :
    ArenaWF (allocSeq a sizes) := by
  induction sizes generalizing a with
  | nil => exact hwf
  | cons sz rest ih =>
    have h1 : allocSeq a (sz :: rest) = allocSeq (ArenaAlloc a sz).2 rest := rfl
    rw [h1]
    exact ih _ (arenaAlloc_wf a sz hwf)

/-- C3 (amended): the allocation operation returns NULL without any state
when the arena pointer is absent; returns NULL with no effect when the
arena already carries an error; when pos + size (computed without
wraparound, i.e. pos + size < 2^64) would exceed the capacity it returns
NULL, leaves pos unchanged and sets the error to ERR_NO_MEMORY; on
success it returns the address of the old pos and advances pos by exactly
size; pos is non-decreasing at every non-wrapping call, and 0 <= pos <=
size is preserved across any sequence of calls whatsoever. -/
theorem arenaAlloc_spec (a : Arena) (sz : Nat) (sizes : List Nat) :
    ArenaAllocP none sz = (none, none) ∧
    (a.err ≠ ERR_NO_ERROR → ArenaAlloc a sz = (none, a)) ∧
    (ArenaWF a → a.err = ERR_NO_ERROR → a.size < a.pos + (sz : Int) →
      a.pos + (sz : Int) < (UMAX : Int) →
      ArenaAlloc a sz = (none, { a with err := ERR_NO_MEMORY })) ∧
    (ArenaWF a → a.err = ERR_NO_ERROR → a.pos + (sz : Int) ≤ a.size →
      ArenaAlloc a sz = (some (a.memory + a.pos), { a with pos := a.pos + (sz : Int) })) ∧
    (ArenaWF a → a.pos + (sz : Int) < (UMAX : Int) → a.pos ≤ (ArenaAlloc a sz).2.pos) ∧
    (ArenaWF a → ArenaWF (allocSeq a sizes)) := by
  refine ⟨rfl, arenaAlloc_errored a sz, arenaAlloc_oom a sz,
    arenaAlloc_success a sz, ?_, fun h => allocSeq_wf sizes a h⟩
  intro hwf hnw
  obtain ⟨h0, h1, h2⟩ := hwf
  unfold ArenaAlloc
  split
  · exact le_rfl
  split
  · exact le_rfl
  · rename_i herr hng
    have hup : toU64 a.pos = a.pos.toNat := toU64_eq _ h0 (by unfold UMAX; omega)
    have hlt : a.pos.toNat + sz < UMAX := by unfold UMAX at *; omega
    have hmod : (toU64 a.pos + sz) % UMAX = a.pos.toNat + sz := by
      rw [hup]; exact Nat.mod_eq_of_lt hlt
    have hus : toU64 a.size = a.size.toNat := toU64_eq _ (by omega) (by unfold UMAX; omega)
    have hsmall : a.pos.toNat + sz < 2 ^ 31 := by rw [hus, hmod] at hng; omega
    show a.pos ≤ i32ofU64 ((toU64 a.pos + sz) % UMAX)
    rw [hmod, i32ofU64_eq _ hsmall]
    omega

/-- C3 counterexample: at the arena state (size 10, pos 5) a request of
2^64 - 1 bytes mathematically exceeds the capacity, yet the u64 guard
wraps and the allocation succeeds, returning a pointer and DECREASING
pos from 5 to 4 — refuting the claim that such a request returns null
with pos unchanged and the error set, and refuting monotonicity of pos. -/
theorem arenaAlloc_wrap_counterexample :
    (let a : Arena := ⟨0, 10, 5, 0, ERR_NO_ERROR⟩
     a.size < a.pos + ((UMAX - 1 : Nat) : Int) ∧
     ArenaAlloc a (UMAX - 1) = (some 5, ⟨0, 10, 4, 0, ERR_NO_ERROR⟩) ∧
     (ArenaAlloc a (UMAX - 1)).2.pos < a.pos ∧
     (ArenaAlloc a (UMAX - 1)).2.err = ERR_NO_ERROR) := by
  refine ⟨?_, by decide, by decide, by decide⟩
  show (10 : Int) < 5 + ((UMAX - 1 : Nat) : Int)
  unfold UMAX
  omega

/-- C3 witness: a concrete successful allocation and a concrete
three-call sequence keeping the arena well-formed. -/
theorem arenaAlloc_spec_witness :
    ArenaAlloc ⟨0, 10, 0, 0, ERR_NO_ERROR⟩ 4 =
      (some (0 + 0), { (⟨0, 10, 0, 0, ERR_NO_ERROR⟩ : Arena) with pos := 0 + (4 : Int) }) ∧
    ArenaWF (allocSeq ⟨0, 10, 0, 0, ERR_NO_ERROR⟩ [4, 4, 4]) :=
  ⟨(arenaAlloc_spec ⟨0, 10, 0, 0, ERR_NO_ERROR⟩ 4 []).2.2.2.1 (by decide) (by decide)
      (by decide),
   (arenaAlloc_spec ⟨0, 10, 0, 0, ERR_NO_ERROR⟩ 4 [4, 4, 4]).2.2.2.2.2 (by decide)⟩

end Libx

namespace Libx

/-- C1: with the header revision, freeing an arena a second time fails
with ERR_DOUBLE_FREE, does not invoke the underlying free again and
leaves the arena unchanged; releasing the same temporary region a second
time fails with ERR_MEMORY_FREED (the equivalent consumed-region error)
and leaves both arenas — parent pos included — unchanged.  The libx.c
revision, however, takes the arena BY VALUE in XArenaFree, so the
consumed mark never reaches the caller: at the failing input the call
frees and returns ERR_NO_ERROR, and the caller's arena being unchanged,
a second identical call frees the same buffer again. -/
theorem free_and_release_twice (a temp parent : Arena)
    (ha : a.err = ERR_NO_ERROR) (hd : a.depth = 0)
    (ht : temp.err = ERR_NO_ERROR) (hp : parent.err = ERR_NO_ERROR)
    (haddr : parent.memory + parent.pos - temp.size = temp.memory) :
    ((ArenaFree a).1 = ERR_NO_ERROR ∧ (ArenaFree a).2.2 = true ∧
     ArenaFree (ArenaFree a).2.1 = (ERR_DOUBLE_FREE, (ArenaFree a).2.1, false)) ∧
    ((ArenaReleaseTemp temp parent).1 = ERR_NO_ERROR ∧
     ArenaReleaseTemp (ArenaReleaseTemp temp parent).2.1 (ArenaReleaseTemp temp parent).2.2 =
       (ERR_MEMORY_FREED, (ArenaReleaseTemp temp parent).2.1,
        (ArenaReleaseTemp temp parent).2.2)) ∧
    XArenaFree ⟨0, 16, 0, 0, ERR_NO_ERROR⟩ = (ERR_NO_ERROR, true) := by
  have hfree : ArenaFree a = (ERR_NO_ERROR, { a with err := ERR_MEMORY_FREED }, true) := by
    rw [ArenaFree, if_neg (by rw [ha]; decide), if_neg (by rw [ha]; decide),
      if_neg (by rw [hd]; decide)]
  have hrel : ArenaReleaseTemp temp parent =
      (ERR_NO_ERROR, { temp with err := ERR_MEMORY_FREED },
       { parent with pos := parent.pos - temp.size }) := by
    rw [ArenaReleaseTemp, if_neg (by rw [ht]; decide), if_neg (by rw [hp]; decide),
      if_neg (by rw [haddr]; exact fun h => h rfl)]
  refine ⟨⟨by rw [hfree], by rw [hfree], ?_⟩, ⟨by rw [hrel], ?_⟩, by decide⟩
  · rw [hfree]
    show ArenaFree { a with err := ERR_MEMORY_FREED } = _
    rw [ArenaFree, if_pos rfl]
  · rw [hrel]
    show ArenaReleaseTemp { temp with err := ERR_MEMORY_FREED } _ = _
    rw [ArenaReleaseTemp, if_pos (show ERR_MEMORY_FREED ≠ ERR_NO_ERROR by decide)]

/-- C1 witness: the double-free and double-release behaviour at a
concrete root arena and a concrete matching temp/parent pair. -/
theorem free_and_release_twice_witness :
    ((ArenaFree ⟨0, 16, 0, 0, ERR_NO_ERROR⟩).1 = ERR_NO_ERROR ∧
     (ArenaFree ⟨0, 16, 0, 0, ERR_NO_ERROR⟩).2.2 = true ∧
     ArenaFree (ArenaFree ⟨0, 16, 0, 0, ERR_NO_ERROR⟩).2.1 =
       (ERR_DOUBLE_FREE, (ArenaFree ⟨0, 16, 0, 0, ERR_NO_ERROR⟩).2.1, false)) ∧
    ((ArenaReleaseTemp ⟨0, 4, 0, 1, ERR_NO_ERROR⟩ ⟨0, 16, 4, 0, ERR_NO_ERROR⟩).1 =
       ERR_NO_ERROR ∧
     ArenaReleaseTemp
         (ArenaReleaseTemp ⟨0, 4, 0, 1, ERR_NO_ERROR⟩ ⟨0, 16, 4, 0, ERR_NO_ERROR⟩).2.1
         (ArenaReleaseTemp ⟨0, 4, 0, 1, ERR_NO_ERROR⟩ ⟨0, 16, 4, 0, ERR_NO_ERROR⟩).2.2 =
       (ERR_MEMORY_FREED,
        (ArenaReleaseTemp ⟨0, 4, 0, 1, ERR_NO_ERROR⟩ ⟨0, 16, 4, 0, ERR_NO_ERROR⟩).2.1,
        (ArenaReleaseTemp ⟨0, 4, 0, 1, ERR_NO_ERROR⟩ ⟨0, 16, 4, 0, ERR_NO_ERROR⟩).2.2)) ∧
    XArenaFree ⟨0, 16, 0, 0, ERR_NO_ERROR⟩ = (ERR_NO_ERROR, true) :=
  free_and_release_twice ⟨0, 16, 0, 0, ERR_NO_ERROR⟩ ⟨0, 4, 0, 1, ERR_NO_ERROR⟩
    ⟨0, 16, 4, 0, ERR_NO_ERROR⟩ (by decide) (by decide) (by decide) (by decide) (by decide)

/-- C2 (amended): every arena returned by a successful ArenaTemp has
depth = parent.depth + 1 (hence nonzero for a parent of nonnegative
depth), pos = 0, and the freshly allocated sub-range of the parent as
its buffer; ArenaFree fails with ERR_TEMP_ARENA_FREE for every arena of
nonzero depth that carries no prior error, while an already-freed or
otherwise errored non-root arena fails with ERR_DOUBLE_FREE or its own
error instead; in no case does ArenaFree release the buffer of an arena
of nonzero depth. -/
theorem arenaTemp_depth_free_spec (parent : Arena) (sz : Nat) (a : Arena)
    (hwf : ArenaWF parent) (herr : parent.err = ERR_NO_ERROR) (hdep : 0 ≤ parent.depth)
    (hfit : parent.pos + (sz : Int) ≤ parent.size) (hsz : sz < 2 ^ 31) :
    ((ArenaTemp parent sz).1.err = ERR_NO_ERROR ∧
     (ArenaTemp parent sz).1.depth = parent.depth + 1 ∧
     (ArenaTemp parent sz).1.depth ≠ 0 ∧
     (ArenaTemp parent sz).1.pos = 0 ∧
     (ArenaTemp parent sz).1.memory = parent.memory + parent.pos ∧
     (ArenaTemp parent sz).1.size = (sz : Int) ∧
     (ArenaTemp parent sz).2 = { parent with pos := parent.pos + (sz : Int) }) ∧
    (a.err = ERR_NO_ERROR → a.depth ≠ 0 → ArenaFree a = (ERR_TEMP_ARENA_FREE, a, false)) ∧
    (a.depth ≠ 0 → (ArenaFree a).2.2 = false) := by
  have htemp : ArenaTemp parent sz =
      ({ memory := parent.memory + parent.pos, size := i32ofU64 sz, pos := 0,
         depth := parent.depth + 1, err := ERR_NO_ERROR },
       { parent with pos := parent.pos + (sz : Int) }) := by
    rw [ArenaTemp, arenaAlloc_success parent sz hwf herr hfit]
  refine ⟨?_, ?_, ?_⟩
  · rw [htemp, i32ofU64_eq sz hsz]
    refine ⟨rfl, rfl, by simp; omega, rfl, rfl, rfl, rfl⟩
  · intro hae had
    rw [ArenaFree, if_neg (by rw [hae]; decide), if_neg (by rw [hae]; decide), if_pos had]
  · intro had
    rw [ArenaFree]
    split
    · rfl
    split
    · rfl
    · rfl

/-- C2 counterexample: a temporary region that has been released (a
state reachable by ArenaTemp followed by ArenaReleaseTemp) has nonzero
depth, yet ArenaFree rejects it with ERR_DOUBLE_FREE, not with
ERR_TEMP_ARENA_FREE as the claim requires of EVERY arena with
depth 0. -/
theorem arenaFree_freed_temp_counterexample :
    (let p0 : Arena := ⟨100, 10, 0, 0, ERR_NO_ERROR⟩
     let t := (ArenaTemp p0 4).1
     let rel := ArenaReleaseTemp t (ArenaTemp p0 4).2
     rel.1 = ERR_NO_ERROR ∧ rel.2.1.depth ≠ 0 ∧
     (ArenaFree rel.2.1).1 = ERR_DOUBLE_FREE ∧
     (ArenaFree rel.2.1).1 ≠ ERR_TEMP_ARENA_FREE) := by
  decide

/-- C2 witness: the temp-open field facts and the non-root rejection at
concrete inputs. -/
theorem arenaTemp_depth_free_spec_witness :
    ((ArenaTemp ⟨0, 16, 0, 0, ERR_NO_ERROR⟩ 8).1.depth =
      (⟨0, 16, 0, 0, ERR_NO_ERROR⟩ : Arena).depth + 1) ∧
    ArenaFree ⟨0, 8, 0, 1, ERR_NO_ERROR⟩ =
      (ERR_TEMP_ARENA_FREE, ⟨0, 8, 0, 1, ERR_NO_ERROR⟩, false) :=
  ⟨(arenaTemp_depth_free_spec ⟨0, 16, 0, 0, ERR_NO_ERROR⟩ 8 ⟨0, 8, 0, 1, ERR_NO_ERROR⟩
      (by decide) (by decide) (by decide) (by decide) (by decide)).1.2.1,
   (arenaTemp_depth_free_spec ⟨0, 16, 0, 0, ERR_NO_ERROR⟩ 8 ⟨0, 8, 0, 1, ERR_NO_ERROR⟩
      (by decide) (by decide) (by decide) (by decide) (by decide)).2.1 (by decide) (by decide)⟩

end Libx

namespace Libx

/-- C4 (amended): after opening temp regions T1 then T2 from parent P,
with T2 of NONZERO size, releasing T1 before T2 fails with
ERR_ARENA_RELEASE_AFTER_ALLOC and returns T1 and the parent unchanged
(T2, not being passed, is untouched); releasing T2 then T1 both succeed
and restore the parent's pos to its value from before T1 was opened.
The nonzero-size proviso is forced: the release check is pure address
arithmetic and a zero-sized sibling is invisible to it. -/
theorem releaseTemp_lifo (P : Arena) (s1 s2 : Nat)
    (hwf : ArenaWF P) (herr : P.err = ERR_NO_ERROR)
    (hfit : P.pos + (s1 : Int) + (s2 : Int) ≤ P.size) (hs2 : 0 < s2) :
    (ArenaReleaseTemp (ArenaTemp P s1).1 (ArenaTemp (ArenaTemp P s1).2 s2).2 =
      (ERR_ARENA_RELEASE_AFTER_ALLOC, (ArenaTemp P s1).1,
       (ArenaTemp (ArenaTemp P s1).2 s2).2)) ∧
    ((ArenaReleaseTemp (ArenaTemp (ArenaTemp P s1).2 s2).1
        (ArenaTemp (ArenaTemp P s1).2 s2).2).1 = ERR_NO_ERROR ∧
     (ArenaReleaseTemp (ArenaTemp P s1).1
        (ArenaReleaseTemp (ArenaTemp (ArenaTemp P s1).2 s2).1
          (ArenaTemp (ArenaTemp P s1).2 s2).2).2.2).1 = ERR_NO_ERROR ∧
     (ArenaReleaseTemp (ArenaTemp P s1).1
        (ArenaReleaseTemp (ArenaTemp (ArenaTemp P s1).2 s2).1
          (ArenaTemp (ArenaTemp P s1).2 s2).2).2.2).2.2.pos = P.pos) := by
  obtain ⟨h0, h1, h2⟩ := hwf
  have hs1fit : P.pos + (s1 : Int) ≤ P.size := by omega
  have hs1small : s1 < 2 ^ 31 := by omega
  have hs2small : s2 < 2 ^ 31 := by omega
  have ht1 : ArenaTemp P s1 =
      ({ memory := P.memory + P.pos, size := (s1 : Int), pos := 0,
         depth := P.depth + 1, err := ERR_NO_ERROR },
       { P with pos := P.pos + (s1 : Int) }) := by
    rw [ArenaTemp, arenaAlloc_success P s1 ⟨h0, h1, h2⟩ herr hs1fit, i32ofU64_eq s1 hs1small]
  have hp1wf : ArenaWF { P with pos := P.pos + (s1 : Int) } :=
    ⟨by show (0 : Int) ≤ P.pos + (s1 : Int); omega,
     by show P.pos + (s1 : Int) ≤ P.size; omega, h2⟩
  have hp1fit : ({ P with pos := P.pos + (s1 : Int) } : Arena).pos + (s2 : Int) ≤
      ({ P with pos := P.pos + (s1 : Int) } : Arena).size := by
    show P.pos + (s1 : Int) + (s2 : Int) ≤ P.size
    omega
  have ht2 : ArenaTemp { P with pos := P.pos + (s1 : Int) } s2 =
      ({ memory := P.memory + (P.pos + (s1 : Int)), size := (s2 : Int), pos := 0,
         depth := P.depth + 1, err := ERR_NO_ERROR },
       { P with pos := P.pos + (s1 : Int) + (s2 : Int) }) := by
    rw [ArenaTemp, arenaAlloc_success _ s2 hp1wf herr hp1fit, i32ofU64_eq s2 hs2small]
  have hrel1 : ArenaReleaseTemp
      ⟨P.memory + P.pos, (s1 : Int), 0, P.depth + 1, ERR_NO_ERROR⟩
      { P with pos := P.pos + (s1 : Int) + (s2 : Int) } =
      (ERR_ARENA_RELEASE_AFTER_ALLOC,
       ⟨P.memory + P.pos, (s1 : Int), 0, P.depth + 1, ERR_NO_ERROR⟩,
       { P with pos := P.pos + (s1 : Int) + (s2 : Int) }) := by
    unfold ArenaReleaseTemp
    split_ifs with hA hB hC
    · exact absurd rfl hA
    · exact absurd herr hB
    · rfl
    · exfalso
      apply hC
      dsimp only
      omega
  have hrel2 : ArenaReleaseTemp
      ⟨P.memory + (P.pos + (s1 : Int)), (s2 : Int), 0, P.depth + 1, ERR_NO_ERROR⟩
      { P with pos := P.pos + (s1 : Int) + (s2 : Int) } =
      (ERR_NO_ERROR,
       ⟨P.memory + (P.pos + (s1 : Int)), (s2 : Int), 0, P.depth + 1, ERR_MEMORY_FREED⟩,
       { P with pos := P.pos + (s1 : Int) }) := by
    unfold ArenaReleaseTemp
    split_ifs with hA hB hC
    · exact absurd rfl hA
    · exact absurd herr hB
    · exact absurd (show ({ P with pos := P.pos + (s1 : Int) + (s2 : Int) } : Arena).memory +
        ({ P with pos := P.pos + (s1 : Int) + (s2 : Int) } : Arena).pos -
        (⟨P.memory + (P.pos + (s1 : Int)), (s2 : Int), 0, P.depth + 1,
          ERR_NO_ERROR⟩ : Arena).size =
        (⟨P.memory + (P.pos + (s1 : Int)), (s2 : Int), 0, P.depth + 1,
          ERR_NO_ERROR⟩ : Arena).memory by dsimp only; omega) hC
    · dsimp only
      rw [show P.pos + (s1 : Int) + (s2 : Int) - (s2 : Int) = P.pos + (s1 : Int) from by omega]
  have hrel3 : ArenaReleaseTemp
      ⟨P.memory + P.pos, (s1 : Int), 0, P.depth + 1, ERR_NO_ERROR⟩
      { P with pos := P.pos + (s1 : Int) } =
      (ERR_NO_ERROR,
       ⟨P.memory + P.pos, (s1 : Int), 0, P.depth + 1, ERR_MEMORY_FREED⟩,
       { P with pos := P.pos }) := by
    unfold ArenaReleaseTemp
    split_ifs with hA hB hC
    · exact absurd rfl hA
    · exact absurd herr hB
    · exact absurd (show ({ P with pos := P.pos + (s1 : Int) } : Arena).memory +
        ({ P with pos := P.pos + (s1 : Int) } : Arena).pos -
        (⟨P.memory + P.pos, (s1 : Int), 0, P.depth + 1, ERR_NO_ERROR⟩ : Arena).size =
        (⟨P.memory + P.pos, (s1 : Int), 0, P.depth + 1, ERR_NO_ERROR⟩ : Arena).memory
        by dsimp only; omega) hC
    · dsimp only
      rw [show P.pos + (s1 : Int) - (s1 : Int) = P.pos from by omega]
  rw [ht1]
  simp only [ht2]
  refine ⟨hrel1, ?_, ?_, ?_⟩
  · rw [hrel2]
  · rw [hrel2, hrel3]
  · rw [hrel2, hrel3]

/-- C4 counterexample: with T2 of size 0, the address check cannot see
the sibling, and releasing T1 before T2 SUCCEEDS (returns ERR_NO_ERROR)
instead of failing with ERR_ARENA_RELEASE_AFTER_ALLOC. -/
theorem releaseTemp_zero_size_counterexample :
    (let P : Arena := ⟨0, 10, 0, 0, ERR_NO_ERROR⟩
     let r1 := ArenaTemp P 3
     let r2 := ArenaTemp r1.2 0
     (ArenaReleaseTemp r1.1 r2.2).1 = ERR_NO_ERROR ∧
     (ArenaReleaseTemp r1.1 r2.2).1 ≠ ERR_ARENA_RELEASE_AFTER_ALLOC) := by
  decide

/-- C4 witness: the three-release scenario at concrete sizes 3 and 2. -/
theorem releaseTemp_lifo_witness :
    (ArenaReleaseTemp (ArenaTemp (⟨0, 10, 0, 0, ERR_NO_ERROR⟩ : Arena) 3).1
       (ArenaTemp (ArenaTemp (⟨0, 10, 0, 0, ERR_NO_ERROR⟩ : Arena) 3).2 2).2).1 =
      ERR_ARENA_RELEASE_AFTER_ALLOC ∧
    (ArenaReleaseTemp (ArenaTemp (⟨0, 10, 0, 0, ERR_NO_ERROR⟩ : Arena) 3).1
       (ArenaReleaseTemp
         (ArenaTemp (ArenaTemp (⟨0, 10, 0, 0, ERR_NO_ERROR⟩ : Arena) 3).2 2).1
         (ArenaTemp (ArenaTemp (⟨0, 10, 0, 0, ERR_NO_ERROR⟩ : Arena) 3).2 2).2).2.2).2.2.pos =
      (⟨0, 10, 0, 0, ERR_NO_ERROR⟩ : Arena).pos :=
  ⟨by rw [(releaseTemp_lifo ⟨0, 10, 0, 0, ERR_NO_ERROR⟩ 3 2 (by decide) (by decide)
      (by decide) (by decide)).1],
   (releaseTemp_lifo ⟨0, 10, 0, 0, ERR_NO_ERROR⟩ 3 2 (by decide) (by decide)
      (by decide) (by decide)).2.2.2⟩

end Libx

namespace Libx

theorem appendN_spec (n : Nat) (l : ListHeader) (h0 : 0 ≤ l.length) (hc : l.length ≤ l.cap) :
    (appendN l n).length = min (l.length + n) l.cap ∧ (appendN l n).cap = l.cap := by
  induction n generalizing l with
  | zero =>
    refine ⟨?_, rfl⟩
    show l.length = min (l.length + 0) l.cap
    omega
  | succ n ih =>
    show (appendN (ListAppend l 0) n).length = _ ∧ (appendN (ListAppend l 0) n).cap = _
    unfold ListAppend
    split
    · rename_i hlt
      obtain ⟨ha, hb⟩ := ih { l with length := l.length + 1 }
        (by show 0 ≤ l.length + 1; omega) (by show l.length + 1 ≤ l.cap; omega)
      refine ⟨?_, hb⟩
      rw [ha]
      show min (l.length + 1 + (n : Int)) l.cap = min (l.length + ((n : Nat) + 1 : Int)) l.cap
      congr 1
      omega
    · rename_i hge
      obtain ⟨ha, hb⟩ := ih l h0 hc
      refine ⟨?_, hb⟩
      rw [ha]
      omega

/-- C5 (amended): for capacities below 2^31 — the capacity is stored
into an int header field, so 2^31 or more wraps negative, at which
point every append is a no-op and Len stays 0, as the final conjunct
records at ListCreate(0, 2^31) — appending preserves
0 <= length <= capacity, an append at length = capacity is a no-op,
and appending capacity + 1 items to a freshly created list leaves Len
at exactly the capacity.  ListPop, however, decrements length
UNconditionally, so 0 <= length is preserved only when the popped list
is non-empty: popping an empty list drives length to -1. -/
theorem list_capacity_bounds (ds cap : Nat) (l : ListHeader) (item : Nat)
    (h0 : 0 ≤ l.length) (hc : l.length ≤ l.cap) (hcap : cap < 2 ^ 31) :
    (0 ≤ (ListAppend l item).length ∧ (ListAppend l item).length ≤ (ListAppend l item).cap) ∧
    (l.length = l.cap → ListAppend l item = l) ∧
    ListLen (appendN (ListCreate ds cap) (cap + 1)) = (cap : Int) ∧
    (0 < l.length → 0 ≤ (ListPop l).2.length) ∧
    ((ListCreate 0 (2 ^ 31)).cap = -(2 ^ 31) ∧
      ListLen (appendN (ListCreate 0 (2 ^ 31)) 1) = 0) := by
  refine ⟨?_, ?_, ?_, ?_, by decide⟩
  · unfold ListAppend
    split
    · rename_i hlt
      constructor
      · show (0 : Int) ≤ l.length + 1
        omega
      · show l.length + 1 ≤ l.cap
        omega
    · exact ⟨h0, hc⟩
  · intro heq
    unfold ListAppend
    rw [if_neg (by omega)]
  · have hcapeq : (ListCreate ds cap).cap = (cap : Int) := by
      show i32ofU64 cap = (cap : Int)
      exact i32ofU64_eq cap hcap
    obtain ⟨ha, _⟩ := appendN_spec (cap + 1) (ListCreate ds cap)
      (by show (0 : Int) ≤ 0; omega)
      (by rw [hcapeq]; show (0 : Int) ≤ (cap : Int); omega)
    show (appendN (ListCreate ds cap) (cap + 1)).length = (cap : Int)
    rw [ha, hcapeq]
    show min ((0 : Int) + ((cap + 1 : Nat) : Int)) (cap : Int) = (cap : Int)
    omega
  · intro hpos
    show (0 : Int) ≤ l.length - 1
    omega

/-- C5 counterexample: popping a freshly created (empty) list of
capacity 1 drives length to -1, refuting the claim that pop never
drives length below 0 and that every operation preserves 0 <= length. -/
theorem listPop_empty_counterexample :
    (ListPop (ListCreate 8 1)).2.length = -1 ∧ (ListPop (ListCreate 8 1)).2.length < 0 := by
  decide

/-- C5 witness: the capacity bound at a concrete list of capacity 2. -/
theorem list_capacity_bounds_witness :
    ListLen (appendN (ListCreate 4 2) (2 + 1)) = ((2 : Nat) : Int) ∧
    (0 ≤ (ListPop (ListAppend (ListCreate 4 2) 7)).2.length) :=
  ⟨(list_capacity_bounds 4 2 (ListCreate 4 2) 7 (by decide) (by decide) (by decide)).2.2.1,
   (list_capacity_bounds 4 2 (ListAppend (ListCreate 4 2) 7) 7 (by decide)
      (by decide) (by decide)).2.2.2.1 (by decide)⟩

/-- C6: StrConcat with one errored and one valid argument, in either
order, returns a String carrying the errored input's error with the
empty byte view (length 0), and the arena — its pos included — is
returned untouched: the error short-circuit precedes the allocation. -/
theorem strConcat_error_propagation (a : Arena) (e v : String)
    (he : e.err ≠ ERR_NO_ERROR) (hv : v.err = ERR_NO_ERROR) :
    StrConcat a e v = ({ chars := [], err := e.err }, a) ∧
    StrConcat a v e = ({ chars := [], err := e.err }, a) := by
  constructor
  · unfold StrConcat
    rw [if_pos he]
  · unfold StrConcat
    rw [if_neg (by rw [hv]; exact fun h => h rfl), if_pos he]

/-- C6 witness: a concrete out-of-memory-errored string concatenated
with a concrete valid one in both orders. -/
theorem strConcat_error_propagation_witness :
    StrConcat ⟨0, 16, 3, 0, ERR_NO_ERROR⟩ ⟨[], ERR_NO_MEMORY⟩ ⟨[104, 105], ERR_NO_ERROR⟩ =
      ({ chars := [], err := ERR_NO_MEMORY }, ⟨0, 16, 3, 0, ERR_NO_ERROR⟩) ∧
    StrConcat ⟨0, 16, 3, 0, ERR_NO_ERROR⟩ ⟨[104, 105], ERR_NO_ERROR⟩ ⟨[], ERR_NO_MEMORY⟩ =
      ({ chars := [], err := ERR_NO_MEMORY }, ⟨0, 16, 3, 0, ERR_NO_ERROR⟩) :=
  strConcat_error_propagation ⟨0, 16, 3, 0, ERR_NO_ERROR⟩ ⟨[], ERR_NO_MEMORY⟩
    ⟨[104, 105], ERR_NO_ERROR⟩ (by decide) (by decide)

/-- C7: splitting the byte string "a,bb,ccc" on the comma yields exactly
the segments "a", "bb", "ccc" in order, each error-free; the iterator
becomes terminal (ERR_ITERATION_FINISH) upon emitting the third segment;
a fourth call returns an errored empty String and leaves the iterator
untouched; and in general any call on an iterator already carrying an
error (terminal included) returns that error with the iterator
unchanged, so no call ever returns a terminal iterator to the active
state. -/
theorem strSplit_roundtrip (it : StringIter) (d : Nat) (hterm : it.err ≠ ERR_NO_ERROR) :
    (StrSplit (StrToIteratorEx [97, 44, 98, 98, 44, 99, 99, 99]) 44 =
      some ({ chars := [97], err := ERR_NO_ERROR },
            { s := { chars := [97, 44, 98, 98, 44, 99, 99, 99], err := ERR_NO_ERROR },
              pos := 2, err := ERR_NO_ERROR }) ∧
     StrSplit { s := { chars := [97, 44, 98, 98, 44, 99, 99, 99], err := ERR_NO_ERROR },
                pos := 2, err := ERR_NO_ERROR } 44 =
      some ({ chars := [98, 98], err := ERR_NO_ERROR },
            { s := { chars := [97, 44, 98, 98, 44, 99, 99, 99], err := ERR_NO_ERROR },
              pos := 5, err := ERR_NO_ERROR }) ∧
     StrSplit { s := { chars := [97, 44, 98, 98, 44, 99, 99, 99], err := ERR_NO_ERROR },
                pos := 5, err := ERR_NO_ERROR } 44 =
      some ({ chars := [99, 99, 99], err := ERR_NO_ERROR },
            { s := { chars := [97, 44, 98, 98, 44, 99, 99, 99], err := ERR_NO_ERROR },
              pos := 8, err := ERR_ITERATION_FINISH }) ∧
     StrSplit { s := { chars := [97, 44, 98, 98, 44, 99, 99, 99], err := ERR_NO_ERROR },
                pos := 8, err := ERR_ITERATION_FINISH } 44 =
      some ({ chars := [], err := ERR_ITERATION_FINISH },
            { s := { chars := [97, 44, 98, 98, 44, 99, 99, 99], err := ERR_NO_ERROR },
              pos := 8, err := ERR_ITERATION_FINISH })) ∧
    StrSplit it d = some ({ chars := [], err := it.err }, it) := by
  constructor
  · exact ⟨by decide, by decide, by decide, by decide⟩
  · unfold StrSplit
    rw [if_pos hterm]

/-- C7 witness: the short-circuit applied to a concrete terminal
iterator. -/
theorem strSplit_roundtrip_witness :
    StrSplit { s := { chars := [97], err := ERR_NO_ERROR },
               pos := 1, err := ERR_ITERATION_FINISH } 44 =
      some ({ chars := [], err := ERR_ITERATION_FINISH },
            { s := { chars := [97], err := ERR_NO_ERROR },
              pos := 1, err := ERR_ITERATION_FINISH }) :=
  (strSplit_roundtrip
    { s := { chars := [97], err := ERR_NO_ERROR }, pos := 1, err := ERR_ITERATION_FINISH }
    44 (by decide)).2

/-- C8: for every one of the 11 defined error codes the libx.h lookup
returns a fixed non-null message, but the out-of-range guard compares the
code against sizeof(error_msgs) = 88 bytes instead of the entry count,
so looking up code 12 — outside the enumeration — does NOT terminate the
process and reads past the message table; the libx.c revision has no
guard at all, returns a NULL entry for the defined code
ERR_MEMORY_FREED = 3, and reads past its 7-entry table for the defined
code ERR_LIST_FULL = 7. -/
theorem xError_lookup_bug :
    ((List.range 11).all fun e => (XError e).isMsg) = true ∧
    XError 12 = XErrorResult.oobRead ∧
    XError 12 ≠ XErrorResult.panicked ∧
    cXError ERR_MEMORY_FREED = XErrorResult.nullMsg ∧
    cXError ERR_LIST_FULL = XErrorResult.oobRead := by
  refine ⟨?_, by decide, by decide, by decide, by decide⟩
  decide

end Libx

namespace Libx

theorem upperByte_idem (c : Nat) : upperByte (upperByte c) = upperByte c := by
  unfold upperByte
  split_ifs <;> omega

theorem lowerByte_upperByte (c : Nat) : lowerByte (upperByte c) = lowerByte c := by
  unfold upperByte lowerByte
  split_ifs <;> omega

theorem map_upperByte_idem (l : List Nat) :
    (l.map upperByte).map upperByte = l.map upperByte := by
  induction l with
  | nil => rfl
  | cons c rest ih => simp [upperByte_idem, ih]

theorem map_lowerByte_upperByte (l : List Nat) :
    (l.map upperByte).map lowerByte = l.map lowerByte := by
  induction l with
  | nil => rfl
  | cons c rest ih => simp [lowerByte_upperByte, ih]

theorem strCopy_success (a : Arena) (s : String) (hwf : ArenaWF a)
    (ha : a.err = ERR_NO_ERROR) (hs : s.err = ERR_NO_ERROR)
    (hfit : a.pos + (s.chars.length : Int) ≤ a.size) :
    StrCopy a s = ({ chars := s.chars, err := ERR_NO_ERROR },
      { a with pos := a.pos + (s.chars.length : Int) }) := by
  unfold StrCopy
  rw [if_neg (by rw [hs]; exact fun h => h rfl),
    arenaAlloc_success a s.chars.length hwf ha hfit]

theorem strUpper_success (a : Arena) (s : String) (hwf : ArenaWF a)
    (ha : a.err = ERR_NO_ERROR) (hs : s.err = ERR_NO_ERROR)
    (hfit : a.pos + (s.chars.length : Int) ≤ a.size) :
    StrUpper a s = ({ chars := s.chars.map upperByte, err := ERR_NO_ERROR },
      { a with pos := a.pos + (s.chars.length : Int) }) := by
  unfold StrUpper
  rw [if_neg (by rw [hs]; exact fun h => h rfl), strCopy_success a s hwf ha hs hfit]
  dsimp only
  rw [if_neg (show ¬ ERR_NO_ERROR ≠ ERR_NO_ERROR from fun h => h rfl)]

theorem strLower_success (a : Arena) (s : String) (hwf : ArenaWF a)
    (ha : a.err = ERR_NO_ERROR) (hs : s.err = ERR_NO_ERROR)
    (hfit : a.pos + (s.chars.length : Int) ≤ a.size) :
    StrLower a s = ({ chars := s.chars.map lowerByte, err := ERR_NO_ERROR },
      { a with pos := a.pos + (s.chars.length : Int) }) := by
  unfold StrLower
  rw [if_neg (by rw [hs]; exact fun h => h rfl), strCopy_success a s hwf ha hs hfit]
  dsimp only
  rw [if_neg (show ¬ ERR_NO_ERROR ≠ ERR_NO_ERROR from fun h => h rfl)]

/-- C9: for an error-free input string and an arena with room for both
copies, Upper(Upper(s)) equals Upper(s) byte-for-byte, and
Lower(Upper(s)) equals Lower(s) byte-for-byte; moreover the per-byte
transformations only fold the ASCII letter ranges and pass every other
byte — all non-ASCII bytes included — through unchanged. -/
theorem case_folding_spec (a : Arena) (s : String)
    (hs : s.err = ERR_NO_ERROR) (hwf : ArenaWF a) (ha : a.err = ERR_NO_ERROR)
    (hfit : a.pos + 2 * (s.chars.length : Int) ≤ a.size) :
    ((StrUpper a s).1.err = ERR_NO_ERROR ∧
     (StrUpper (StrUpper a s).2 (StrUpper a s).1).1.chars = (StrUpper a s).1.chars ∧
     (StrLower (StrUpper a s).2 (StrUpper a s).1).1.chars = (StrLower a s).1.chars) ∧
    (∀ c, ¬ (97 ≤ c ∧ c ≤ 122) → upperByte c = c) ∧
    (∀ c, ¬ (65 ≤ c ∧ c ≤ 90) → lowerByte c = c) := by
  obtain ⟨h0, h1, h2⟩ := hwf
  have hlen : (0 : Int) ≤ (s.chars.length : Int) := by omega
  have hfit1 : a.pos + (s.chars.length : Int) ≤ a.size := by omega
  have hu := strUpper_success a s ⟨h0, h1, h2⟩ ha hs hfit1
  have ha1wf : ArenaWF { a with pos := a.pos + (s.chars.length : Int) } :=
    ⟨by show (0 : Int) ≤ a.pos + (s.chars.length : Int); omega,
     by show a.pos + (s.chars.length : Int) ≤ a.size; omega, h2⟩
  have hulen : ((s.chars.map upperByte).length : Int) = (s.chars.length : Int) := by
    rw [List.length_map]
  have hfit2 : ({ a with pos := a.pos + (s.chars.length : Int) } : Arena).pos +
      (((s.chars.map upperByte) : List Nat).length : Int) ≤
      ({ a with pos := a.pos + (s.chars.length : Int) } : Arena).size := by
    show a.pos + (s.chars.length : Int) + ((s.chars.map upperByte).length : Int) ≤ a.size
    rw [hulen]
    omega
  have huu := strUpper_success { a with pos := a.pos + (s.chars.length : Int) }
    { chars := s.chars.map upperByte, err := ERR_NO_ERROR } ha1wf
    (show ({ a with pos := a.pos + (s.chars.length : Int) } : Arena).err = ERR_NO_ERROR
      from ha) rfl hfit2
  have hlu := strLower_success { a with pos := a.pos + (s.chars.length : Int) }
    { chars := s.chars.map upperByte, err := ERR_NO_ERROR } ha1wf
    (show ({ a with pos := a.pos + (s.chars.length : Int) } : Arena).err = ERR_NO_ERROR
      from ha) rfl hfit2
  have hl := strLower_success a s ⟨h0, h1, h2⟩ ha hs hfit1
  refine ⟨⟨by rw [hu], ?_, ?_⟩, ?_, ?_⟩
  · rw [hu]
    dsimp only
    rw [huu]
    exact map_upperByte_idem s.chars
  · rw [hu]
    dsimp only
    rw [hlu, hl]
    exact map_lowerByte_upperByte s.chars
  · intro c hc
    unfold upperByte
    rw [if_neg hc]
  · intro c hc
    unfold lowerByte
    rw [if_neg hc]

/-- C9 witness: the fold identities at a concrete string holding a
lowercase letter, an uppercase letter and a non-ASCII byte. -/
theorem case_folding_spec_witness :
    (StrUpper (StrUpper ⟨0, 16, 0, 0, ERR_NO_ERROR⟩ ⟨[97, 90, 200], ERR_NO_ERROR⟩).2
       (StrUpper ⟨0, 16, 0, 0, ERR_NO_ERROR⟩ ⟨[97, 90, 200], ERR_NO_ERROR⟩).1).1.chars =
      (StrUpper ⟨0, 16, 0, 0, ERR_NO_ERROR⟩ ⟨[97, 90, 200], ERR_NO_ERROR⟩).1.chars ∧
    (StrLower (StrUpper ⟨0, 16, 0, 0, ERR_NO_ERROR⟩ ⟨[97, 90, 200], ERR_NO_ERROR⟩).2
       (StrUpper ⟨0, 16, 0, 0, ERR_NO_ERROR⟩ ⟨[97, 90, 200], ERR_NO_ERROR⟩).1).1.chars =
      (StrLower ⟨0, 16, 0, 0, ERR_NO_ERROR⟩ ⟨[97, 90, 200], ERR_NO_ERROR⟩).1.chars :=
  ⟨(case_folding_spec ⟨0, 16, 0, 0, ERR_NO_ERROR⟩ ⟨[97, 90, 200], ERR_NO_ERROR⟩
      (by decide) (by decide) (by decide) (by decide)).1.2.1,
   (case_folding_spec ⟨0, 16, 0, 0, ERR_NO_ERROR⟩ ⟨[97, 90, 200], ERR_NO_ERROR⟩
      (by decide) (by decide) (by decide) (by decide)).1.2.2⟩

end Libx

namespace Libx

theorem foundAt_iff (chars word : List Nat) (i : Nat) :
    foundAt chars word i = true ↔
      ∀ j, j < word.length → i + j < chars.length → chars.getD (i + j) 0 = word.getD j 0 := by
  unfold foundAt
  simp only [List.all_eq_true, List.mem_range, Bool.or_eq_true, decide_eq_true_eq, beq_iff_eq]
  constructor
  · intro h j hj hlt
    rcases h j hj with h1 | h1
    · omega
    · exact h1
  · intro h j hj
    by_cases hlt : i + j < chars.length
    · exact Or.inr (h j hj hlt)
    · exact Or.inl (by omega)

theorem findMatch_iff (chars word : List Nat) (i : Nat) :
    (chars.getD i 0 = word.getD 0 0 ∧ foundAt chars word i = true) ↔
      FindMatch chars word i := by
  unfold FindMatch
  rw [foundAt_iff]

theorem findGo_spec (chars word : List Nat) :
    ∀ (rest : List Nat) (i : Nat), rest = chars.drop i →
    (findGo chars word i rest = NOT_FOUND ∧
      ∀ k, i ≤ k → k < chars.length → ¬ FindMatch chars word k) ∨
    (i ≤ findGo chars word i rest ∧ findGo chars word i rest < chars.length ∧
      FindMatch chars word (findGo chars word i rest) ∧
      ∀ k, i ≤ k → k < findGo chars word i rest → ¬ FindMatch chars word k) := by
  intro rest
  induction rest with
  | nil =>
    intro i hdrop
    left
    refine ⟨rfl, ?_⟩
    intro k hik hk
    exfalso
    have hlen := congrArg List.length hdrop
    rw [List.length_drop] at hlen
    simp at hlen
    omega
  | cons c rs ih =>
    intro i hdrop
    have hi : i < chars.length := by
      by_contra hge
      rw [List.drop_eq_nil_of_le (by omega)] at hdrop
      simp at hdrop
    rw [List.drop_eq_getElem_cons hi] at hdrop
    have hc : chars.getD i 0 = c := by
      rw [List.getD_eq_getElem chars 0 hi]
      exact (List.cons.injEq _ _ _ _ ▸ hdrop).1.symm
    have hrs : rs = chars.drop (i + 1) := (List.cons.injEq _ _ _ _ ▸ hdrop).2
    by_cases hcond : c = word.getD 0 0 ∧ foundAt chars word i = true
    · have hstep : findGo chars word i (c :: rs) = i := by
        rw [show findGo chars word i (c :: rs) =
          if c = word.getD 0 0 ∧ foundAt chars word i = true then i
          else findGo chars word (i + 1) rs from rfl]
        rw [if_pos hcond]
      right
      rw [hstep]
      refine ⟨le_rfl, hi, ?_, ?_⟩
      · exact (findMatch_iff chars word i).mp ⟨by rw [hc]; exact hcond.1, hcond.2⟩
      · intro k h1 h2
        omega
    · have hstep : findGo chars word i (c :: rs) = findGo chars word (i + 1) rs := by
        rw [show findGo chars word i (c :: rs) =
          if c = word.getD 0 0 ∧ foundAt chars word i = true then i
          else findGo chars word (i + 1) rs from rfl]
        rw [if_neg hcond]
      have hno : ¬ FindMatch chars word i := by
        intro hm
        obtain ⟨hm1, hm2⟩ := (findMatch_iff chars word i).mpr hm
        exact hcond ⟨by rw [← hc]; exact hm1, hm2⟩
      rcases ih (i + 1) hrs with ⟨hnf, hall⟩ | ⟨hle, hlt, hm, hprev⟩
      · left
        rw [hstep]
        refine ⟨hnf, ?_⟩
        intro k h1 h2
        by_cases hk : k = i
        · rw [hk]; exact hno
        · exact hall k (by omega) h2
      · right
        rw [hstep]
        refine ⟨by omega, hlt, hm, ?_⟩
        intro k h1 h2
        by_cases hk : k = i
        · rw [hk]; exact hno
        · exact hprev k (by omega) h2

/-- C10: for an error-free string and a non-empty word, StrFindWord
either returns the not-found sentinel (the u32 value of -1) with no
index matching, or returns the FIRST index at which the byte equals the
word's first byte and every byte of the word lying within the string
matches — bytes of the word that extend past the end of the string are
not compared, so a partial prefix match at the end counts: searching
for "abc" in "ab" returns 0.  StrFindString performs the identical
search on the word's byte view. -/
theorem strFindWord_spec (s : String) (word : List Nat) (w : String)
    (_hw : word ≠ []) (_hs : s.err = ERR_NO_ERROR) :
    ((StrFindWord s word = NOT_FOUND ∧
        ∀ k, k < s.chars.length → ¬ FindMatch s.chars word k) ∨
     (StrFindWord s word < s.chars.length ∧
        FindMatch s.chars word (StrFindWord s word) ∧
        ∀ k, k < StrFindWord s word → ¬ FindMatch s.chars word k)) ∧
    StrFindString s w = _strFindWordEx s w.chars ∧
    StrFindWord { chars := [97, 98], err := ERR_NO_ERROR } [97, 98, 99] = 0 := by
  refine ⟨?_, rfl, by decide⟩
  have h := findGo_spec s.chars word s.chars 0 (by rw [List.drop_zero])
  unfold StrFindWord _strFindWordEx
  rcases h with ⟨h1, h2⟩ | ⟨hle, hlt, hm, hprev⟩
  · exact Or.inl ⟨h1, fun k hk => h2 k (Nat.zero_le k) hk⟩
  · exact Or.inr ⟨hlt, hm, fun k hk => hprev k (Nat.zero_le k) hk⟩

/-- C10 witness: the partial-prefix behaviour at the concrete example,
searching for the word "abc" in the two-byte string "ab". -/
theorem strFindWord_spec_witness :
    StrFindWord { chars := [97, 98], err := ERR_NO_ERROR } [97, 98, 99] = 0 :=
  (strFindWord_spec { chars := [97, 98], err := ERR_NO_ERROR } [97, 98, 99]
    { chars := [97], err := ERR_NO_ERROR } (by decide) (by decide)).2.2

end Libx
